import Mathlib

/-!
Verification development for the download orchestration engine of the
LinkDownloaderBotForGroups repository: the format planners
(src/app/download_backend.py and src/main.py), the per-source fallback
download chain (src/app/download_backend.py, download_with_ytdlp), the
output resolver, validator and cleanup (src/main.py), the JSON preference
store (src/main.py) and the bounded job queue (src/main.py).

Python dictionaries holding optional keys are modelled as structures of
Option-typed fields; Python ints are Int, Python floats (bitrates,
durations) are Rat; filesystem state is an association list from path to
size.  Python string operations are modelled on the character sequences
of Lean strings.
-/

set_option maxRecDepth 8000

/-- Python str.startswith, on the character sequences of the strings. -/
def py_startswith (s p : String) : Bool := p.data.isPrefixOf s.data

/-- Python str.endswith, on the character sequences of the strings. -/
def py_endswith (s p : String) : Bool := p.data.isSuffixOf s.data

/-- ASCII lowering of one character (Python str.lower on the ASCII range,
which covers every string the bot compares: extensions and codec names). -/
def pyLowerChar (c : Char) : Char :=
  if 'A' ≤ c ∧ c ≤ 'Z' then Char.ofNat (c.toNat + 32) else c

/-- Python str.lower restricted to ASCII. -/
def py_lower (s : String) : String := ⟨s.data.map pyLowerChar⟩

/-- Helper of py_split_char: accumulates the current piece in reverse. -/
def splitOnCharAux (c : Char) : List Char → List Char → List (List Char)
  | [], acc => [acc.reverse]
  | a :: t, acc =>
    if a = c then acc.reverse :: splitOnCharAux c t [] else splitOnCharAux c t (a :: acc)

/-- Python str.split with a one-character separator. -/
def py_split_char (s : String) (c : Char) : List String :=
  (splitOnCharAux c s.data []).map (fun l => ⟨l⟩)

/-- Python str.strip limited to the space character, the only whitespace the
configuration values of this repository carry. -/
def py_strip (s : String) : String :=
  ⟨((s.data.dropWhile (fun c => c = ' ')).reverse.dropWhile (fun c => c = ' ')).reverse⟩

/-- os.path.basename: the part of the path after the last slash. -/
def py_basename (s : String) : String :=
  ⟨(s.data.reverse.takeWhile (fun c => ¬ c = '/')).reverse⟩

/-- Last index of a character in a character list, if any. -/
def lastIdxOfAux (c : Char) : List Char → Nat → Option Nat → Option Nat
  | [], _, best => best
  | a :: t, i, best => lastIdxOfAux c t (i + 1) (if a = c then some i else best)

def lastIdxOf (cs : List Char) (c : Char) : Option Nat := lastIdxOfAux c cs 0 none

/-- The extension part of os.path.splitext: the suffix from the last dot of
the basename, empty when the dot is absent or only leading dots precede it. -/
def py_splitext_ext (p : String) : String :=
  let cs := p.data
  let start := match lastIdxOf cs '/' with
    | some i => i + 1
    | none => 0
  match lastIdxOf cs '.' with
  | some d =>
    if start ≤ d ∧ ((cs.drop start).take (d - start)).any (fun c => ¬ c = '.') then
      ⟨cs.drop d⟩
    else ""
  | none => ""

/-- Python `x or d` on an optional string whose empty value is falsy. -/
def strFalsy : Option String → Bool
  | none => true
  | some s => s.isEmpty

/-- Python str() applied to an optional string: None prints as "None". -/
def pyStr (x : Option String) : String := x.getD "None"

/-- Python `x or d` on an optional integer (None and 0 are falsy). -/
def intOr (x : Option Int) (d : Int) : Int :=
  match x with
  | none => d
  | some v => if v = 0 then d else v

/-- Python `x or d` on an optional rational (None and 0.0 are falsy). -/
def ratOr (x : Option Rat) (d : Rat) : Rat :=
  match x with
  | none => d
  | some v => if v = 0 then d else v

/-- Python int() truncation of a nonnegative rational (the only inputs the
source truncates are positive durations and size estimates). -/
def pyIntOfRat (q : Rat) : Int := Int.tdiv q.num q.den

/-- Strict greater-than on rationals as a Bool (Python float comparison). -/
def ratGt (x y : Rat) : Bool := decide (y < x)

/-- Strict greater-than on integers as a Bool. -/
def intGt (x y : Int) : Bool := decide (y < x)

/-- One step of Python tuple comparison: compare the heads, fall through to
the rest of the tuples on a tie. -/
def lexGt {α β : Type} [LinearOrder α] (rest : β → β → Bool) (a b : α × β) : Bool :=
  if a.1 = b.1 then rest a.2 b.2 else decide (b.1 < a.1)

/-- Sort key of download_backend.best_progressive_mp4:
(videoCodecRank, audioCodecRank, height, fps, tbr). -/
abbrev Key5 := Int × Int × Int × Int × Rat

def key5Gt : Key5 → Key5 → Bool := lexGt (lexGt (lexGt (lexGt ratGt)))

/-- Sort key of main._pick_best_progressive_mp4 and of the video candidates of
main._pick_best_separate_mp4_m4a: (height, fps, tbr, codecScore). -/
abbrev Key4m := Int × Int × Rat × Int

def key4mGt : Key4m → Key4m → Bool := lexGt (lexGt (lexGt intGt))

/-- Sort key of the video-only candidates of download_backend:
(videoCodecRank, height, fps, tbr). -/
abbrev Key4s := Int × Int × Int × Rat

def key4sGt : Key4s → Key4s → Bool := lexGt (lexGt (lexGt ratGt))

/-- Sort key of the audio-only candidates of download_backend:
(audioCodecRank, abr). -/
abbrev Key2a := Int × Rat

def key2aGt : Key2a → Key2a → Bool := lexGt ratGt

/-- One yt-dlp format dictionary, restricted to the keys the planners read.
Sizes, heights and frame rates are integers; tbr and abr (floating-point
bitrates in the source) are rationals; a missing key is none. -/
structure Fmt where
  format_id : Option String := none
  ext : Option String := none
  vcodec : Option String := none
  acodec : Option String := none
  height : Option Int := none
  fps : Option Int := none
  tbr : Option Rat := none
  abr : Option Rat := none
  filesize : Option Int := none
  filesize_approx : Option Int := none
deriving DecidableEq, Repr

/-- The slice of a yt-dlp metadata dictionary the planners read. -/
structure Meta where
  duration : Option Rat := none
  formats : List Fmt := []
deriving DecidableEq, Repr

/-- A download plan dictionary as built by download_backend. -/
structure Plan where
  kind : String
  format_spec : String
  merge_output_format : Option String
deriving DecidableEq, Repr

/-- download_backend.duration_sec. -/
def duration_sec (meta : Meta) : Option Int :=
  match meta.duration with
  | some d => if 0 < d then some (pyIntOfRat d) else none
  | none => none

/-- Estimation tail of download_backend.format_size_bytes: duration times
average bitrate, low confidence. -/
def format_size_bytes_est (fmt : Fmt) (dur : Option Int) : Option Int × Bool :=
  match dur, fmt.tbr with
  | some d, some t =>
    if ¬ d = 0 ∧ 0 < t then
      let est := pyIntOfRat ((d : Rat) * (t * 1000 / 8))
      if 0 < est then (some est, false) else (none, false)
    else (none, false)
  | _, _ => (none, false)

/-- Middle case of download_backend.format_size_bytes: filesize_approx. -/
def format_size_bytes_approx (fmt : Fmt) (dur : Option Int) : Option Int × Bool :=
  match fmt.filesize_approx with
  | some fsa => if 0 < fsa then (some fsa, true) else format_size_bytes_est fmt dur
  | none => format_size_bytes_est fmt dur

/-- download_backend.format_size_bytes: declared filesize, else
filesize_approx, else a duration-times-bitrate estimate. -/
def format_size_bytes (fmt : Fmt) (dur : Option Int) : Option Int × Bool :=
  match fmt.filesize with
  | some fs => if 0 < fs then (some fs, true) else format_size_bytes_approx fmt dur
  | none => format_size_bytes_approx fmt dur

/-- download_backend.vcodec_pref_rank: 2 for the avc1 family, else 1. -/
def vcodec_pref_rank (vcodec : Option String) : Int :=
  if py_startswith (vcodec.getD "") "avc1" then 2 else 1

/-- download_backend.acodec_pref_rank: 2 for the mp4a family, else 1. -/
def acodec_pref_rank (acodec : Option String) : Int :=
  if py_startswith (acodec.getD "") "mp4a" then 2 else 1

/-- The loop filter of download_backend.best_progressive_mp4: mp4 container,
video and audio codecs both not "none", non-falsy format id. -/
def prog_candidate (f : Fmt) : Bool :=
  (f.ext == some "mp4") && !(f.vcodec == some "none") && !(f.acodec == some "none") &&
    !(strFalsy f.format_id)

def prog_key (f : Fmt) : Key5 :=
  (vcodec_pref_rank f.vcodec, acodec_pref_rank f.acodec, intOr f.height 0, intOr f.fps 0,
    ratOr f.tbr 0)

def prog_plan (f : Fmt) : Plan :=
  { kind := "progressive", format_spec := pyStr f.format_id, merge_output_format := none }

/-- Accumulator step shared by the keep-the-best-key loops of both planners:
skip non-candidates, adopt the first candidate, replace the incumbent when
the new key compares strictly greater. -/
def argmax_step {ι κ P : Type} (cand : ι → Bool) (keyf : ι → κ) (gt : κ → κ → Bool)
    (mk : ι → P) (acc : Option (P × κ)) (f : ι) : Option (P × κ) :=
  if cand f then
    match acc with
    | none => some (mk f, keyf f)
    | some (p, bk) => if gt (keyf f) bk then some (mk f, keyf f) else some (p, bk)
  else acc

/-- download_backend.best_progressive_mp4. -/
def best_progressive_mp4 (meta : Meta) : Option Plan :=
  (meta.formats.foldl (argmax_step prog_candidate prog_key key5Gt prog_plan) none).map
    (fun x => x.1)

/-- Video-only filter of download_backend.best_separate_mp4_m4a. -/
def sep_video_candidate (f : Fmt) : Bool :=
  (f.ext == some "mp4") && !(f.vcodec == some "none") && (f.acodec == some "none") &&
    !(strFalsy f.format_id)

def sep_video_key (f : Fmt) : Key4s :=
  (vcodec_pref_rank f.vcodec, intOr f.height 0, intOr f.fps 0, ratOr f.tbr 0)

/-- Audio-only filter of download_backend.best_separate_mp4_m4a. -/
def sep_audio_candidate (f : Fmt) : Bool :=
  (f.vcodec == some "none") && !(f.acodec == some "none") &&
    ((f.ext == some "m4a") || (f.ext == some "mp4")) && !(strFalsy f.format_id)

def sep_audio_key (f : Fmt) : Key2a :=
  (acodec_pref_rank f.acodec, ratOr f.abr (ratOr f.tbr 0))

/-- download_backend.best_separate_mp4_m4a.  The source also stores, next to
each kept candidate, its format_size_bytes result; those stored sizes are
never read by any caller and are omitted here. -/
def best_separate_mp4_m4a (meta : Meta) : Option Plan :=
  let step := fun (acc : Option (Fmt × Key4s) × Option (Fmt × Key2a)) (f : Fmt) =>
    (argmax_step sep_video_candidate sep_video_key key4sGt (fun g => g) acc.1 f,
     argmax_step sep_audio_candidate sep_audio_key key2aGt (fun g => g) acc.2 f)
  match meta.formats.foldl step (none, none) with
  | (some (vf, _), some (af, _)) =>
    some { kind := "separate",
           format_spec := pyStr vf.format_id ++ "+" ++ pyStr af.format_id,
           merge_output_format := some "mp4" }
  | _ => none

/-- download_backend.build_video_plan_like_main1: the progressive stage
short-circuits the separate stage. -/
def build_video_plan_like_main1 (meta : Meta) : Option Plan :=
  match best_progressive_mp4 meta with
  | some p => some p
  | none =>
    match best_separate_mp4_m4a meta with
    | some p => some p
    | none => none

/-- Tail of main._format_size_bytes: filesize_approx, no estimation. -/
def _format_size_bytes_approx (fmt : Fmt) : Option Int :=
  match fmt.filesize_approx with
  | some fsa => if 0 < fsa then some fsa else none
  | none => none

/-- main._format_size_bytes: only the two confident size sources, declared
filesize, else filesize_approx. -/
def _format_size_bytes (fmt : Fmt) : Option Int :=
  match fmt.filesize with
  | some fs => if 0 < fs then some fs else _format_size_bytes_approx fmt
  | none => _format_size_bytes_approx fmt

/-- main._prefer_codec_score: 30 for H.264, 20 for HEVC, 10 for AV1, else 0. -/
def _prefer_codec_score (vcodec : String) : Int :=
  let v := py_lower vcodec
  if py_startswith v "avc1" then 30
  else if py_startswith v "hev1" || py_startswith v "hvc1" then 20
  else if py_startswith v "av01" then 10
  else 0

/-- The loop filter of main._pick_best_progressive_mp4: mp4 container, both
codecs not "none", and a declared size that is positive and within the
ceiling.  maxSend stands for the module constant MAX_SEND_BYTES. -/
def _pick_candidate (maxSend : Int) (f : Fmt) : Bool :=
  (f.ext == some "mp4") && !(f.vcodec == some "none") && !(f.acodec == some "none") &&
    (match _format_size_bytes f with
     | some s => decide (0 < s) && decide (s ≤ maxSend)
     | none => false)

def _pick_key (f : Fmt) : Key4m :=
  (intOr f.height 0, intOr f.fps 0, ratOr f.tbr 0, _prefer_codec_score (f.vcodec.getD ""))

/-- main._pick_best_progressive_mp4, with MAX_SEND_BYTES as a parameter. -/
def _pick_best_progressive_mp4 (maxSend : Int) (meta : Meta) : Option String :=
  (meta.formats.foldl
      (argmax_step (_pick_candidate maxSend) _pick_key key4mGt (fun f => pyStr f.format_id))
      none).map
    (fun x => x.1)

/-- A video candidate record of main._pick_best_separate_mp4_m4a. -/
structure VCand where
  id : String
  size : Int
  key : Key4m
deriving DecidableEq, Repr

/-- An audio candidate record of main._pick_best_separate_mp4_m4a. -/
structure ACand where
  id : String
  size : Int
  key : Rat
deriving DecidableEq, Repr

/-- The video-only branch of the collection loop of
main._pick_best_separate_mp4_m4a. -/
def _sep_video_of (f : Fmt) : Option VCand :=
  if (f.ext == some "mp4") && !(f.vcodec == some "none") && (f.acodec == some "none") then
    match _format_size_bytes f with
    | some s =>
      if 0 < s then
        some { id := pyStr f.format_id, size := s,
               key := (intOr f.height 0, intOr f.fps 0, ratOr f.tbr 0,
                       _prefer_codec_score (f.vcodec.getD "")) }
      else none
    | none => none
  else none

/-- The audio-only branch of the collection loop of
main._pick_best_separate_mp4_m4a. -/
def _sep_audio_of (f : Fmt) : Option ACand :=
  if (f.vcodec == some "none") && !(f.acodec == some "none") &&
      ((f.ext == some "m4a") || (f.ext == some "mp4")) then
    match _format_size_bytes f with
    | some s =>
      if 0 < s then
        some { id := pyStr f.format_id, size := s, key := ratOr f.abr (ratOr f.tbr 0) }
      else none
    | none => none
  else none

/-- Stable insertion of one element into a list that is already sorted by the
boolean relation le: the element goes in front of the first entry it may
precede, so equal keys keep their original order. -/
def ordInsert {α : Type} (le : α → α → Bool) (a : α) : List α → List α
  | [] => [a]
  | b :: t => if le a b then a :: b :: t else b :: ordInsert le a t

/-- Stable sort by the boolean relation le.  Python list.sort is also stable,
so for the total preorders used below both produce the same list. -/
def ordSort {α : Type} (le : α → α → Bool) : List α → List α
  | [] => []
  | a :: t => ordInsert le a (ordSort le t)

/-- main._pick_best_separate_mp4_m4a, with MAX_SEND_BYTES as a parameter:
collect video-only and audio-only candidates of known positive size, sort
both descending by key (stable, as list.sort with reverse=True), then take
the first of the top 30 videos that leaves room for one of the top 20
audios. -/
def _pick_best_separate_mp4_m4a (maxSend : Int) (meta : Meta) : Option String :=
  let videos := meta.formats.filterMap _sep_video_of
  let audios := meta.formats.filterMap _sep_audio_of
  if videos.isEmpty || audios.isEmpty then none
  else
    let videos := ordSort (fun a b => ! key4mGt b.key a.key) videos
    let audios := ordSort (fun a b => ! ratGt b.key a.key) audios
    (videos.take 30).findSome? (fun v =>
      if maxSend ≤ v.size then none
      else (audios.take 20).findSome? (fun a =>
        if a.size ≤ maxSend - v.size then some (v.id ++ "+" ++ a.id) else none))

/-- The generic selector expression main._choose_format_for_url falls back
to when no concrete plan is found. -/
def ytdlp_fallback_fmt : String := "b[ext=mp4]/bv*[ext=mp4]+ba[ext=m4a]/b/bv*+ba"

/-- Separate-or-fallback tail of main._choose_format_for_url. -/
def _choose_sep_or_fallback (maxSend : Int) (m : Meta) : String × Option String :=
  match _pick_best_separate_mp4_m4a maxSend m with
  | some s => if s.isEmpty then (ytdlp_fallback_fmt, some "mp4") else (s, some "mp4")
  | none => (ytdlp_fallback_fmt, some "mp4")

/-- main._choose_format_for_url after metadata extraction: the Option Meta
argument is the extracted metadata, none when extraction raised or did not
return a dict.  Returns (format_spec, merge_output_format). -/
def _choose_format_for_url (maxSend : Int) (meta : Option Meta) : String × Option String :=
  match meta with
  | some m =>
    match _pick_best_progressive_mp4 maxSend m with
    | some p => if p.isEmpty then _choose_sep_or_fallback maxSend m else (p, none)
    | none => _choose_sep_or_fallback maxSend m
  | none => (ytdlp_fallback_fmt, some "mp4")

/-- The audio-only extensions main.py refuses to send as video. -/
def audio_only_exts : List String :=
  [".m4a", ".mp3", ".aac", ".ogg", ".opus", ".wav", ".flac"]

/-- The preferred container extension of main.py. -/
def preferred_video_ext : String := ".mp4"

/-- A filesystem snapshot: the set of existing files with their sizes, as an
association list from full path to byte size. -/
abbrev FS := List (String × Int)

def path_exists (fs : FS) (p : String) : Bool := (fs.find? (fun e => e.1 == p)).isSome

/-- os.path.getsize, total because every caller guards it with an existence
check first. -/
def getsize (fs : FS) (p : String) : Int := ((fs.find? (fun e => e.1 == p)).map (fun e => e.2)).getD 0

/-- main._is_good_downloaded_file: a non-empty path of an existing file that
is not a .part or .ytdl intermediate and has strictly positive size. -/
def _is_good_downloaded_file (fs : FS) (fp : String) : Bool :=
  if fp.isEmpty then false
  else if !(path_exists fs fp) then false
  else
    let base := py_lower (py_basename fp)
    if py_endswith base ".part" || py_endswith base ".ytdl" then false
    else decide (0 < getsize fs fp)

/-- One entry of the requested_downloads list of a yt-dlp result. -/
structure ReqDl where
  filepath : Option String := none
deriving DecidableEq, Repr

/-- The slice of a yt-dlp download result main._find_downloaded_file reads.
requested_downloads = none models the case in which reading the field
raises, sending the resolver to the folder-scan fallback; a missing or
empty field in a well-formed result is some []. -/
structure Info where
  requested_downloads : Option (List ReqDl) := none
deriving DecidableEq, Repr

/-- os.path.join for the folder/file case of this repository. -/
def path_join (folder fn : String) : String := folder ++ "/" ++ fn

/-- Branch 1 of main._find_downloaded_file: the requested_downloads file
paths, filtered to good files; prefer mp4, then any non-audio extension,
then the first good candidate. -/
def _find_from_requested (fs : FS) (reqs : List ReqDl) : Option String :=
  let candidates := (reqs.filterMap (fun r => r.filepath)).filter
    (fun fp => !fp.isEmpty && _is_good_downloaded_file fs fp)
  match candidates.find? (fun fp => py_endswith (py_lower fp) preferred_video_ext) with
  | some fp => some fp
  | none =>
    match candidates.find? (fun fp =>
        !(py_lower (py_splitext_ext fp)).isEmpty &&
          !(audio_only_exts.contains (py_lower (py_splitext_ext fp)))) with
    | some fp => some fp
    | none => candidates.head?

/-- Branch 2 of main._find_downloaded_file: scan the output folder for names
starting with the job prefix; prefer a good mp4, then a good non-audio
file, then any good file.  folderFiles models os.listdir of the folder. -/
def _find_from_folder (fs : FS) (folderFiles : List String) (pfx folder : String) :
    Option String :=
  let files := folderFiles.filter (fun fn => py_startswith fn pfx)
  if files.isEmpty then none
  else
    match files.find? (fun fn =>
        py_endswith (py_lower (path_join folder fn)) preferred_video_ext &&
          _is_good_downloaded_file fs (path_join folder fn)) with
    | some fn => some (path_join folder fn)
    | none =>
      match files.find? (fun fn =>
          _is_good_downloaded_file fs (path_join folder fn) &&
            !(py_lower (py_splitext_ext (path_join folder fn))).isEmpty &&
            !(audio_only_exts.contains (py_lower (py_splitext_ext (path_join folder fn))))) with
      | some fn => some (path_join folder fn)
      | none =>
        match files.find? (fun fn => _is_good_downloaded_file fs (path_join folder fn)) with
        | some fn => some (path_join folder fn)
        | none => none

/-- main._find_downloaded_file.  Branch 1 always returns when the
requested_downloads field is readable (also returning none when it yields
no good candidate); the folder scan runs only when reading it raises. -/
def _find_downloaded_file (fs : FS) (folderFiles : List String) (info : Info)
    (pfx folder : String) : Option String :=
  match info.requested_downloads with
  | some reqs => _find_from_requested fs reqs
  | none => _find_from_folder fs folderFiles pfx folder

/-- main._cleanup_files as a function on the folder listing: it removes every
file whose name starts with the prefix and returns the remaining listing. -/
def _cleanup_files (pfx : String) (folderFiles : List String) : List String :=
  folderFiles.filter (fun fn => !(py_startswith fn pfx))

/-- The on-disk state of the preference store: the canonical file and the
temporary file, each either absent or holding a serialized document. -/
structure PrefsDisk where
  canonical : Option String := none
  tmp : Option String := none
deriving DecidableEq, Repr

/-- The two steps of main._save_prefs_locked: json.dump to the temporary
path, then os.replace onto the canonical path. -/
inductive SaveStep where
  | write_tmp
  | replace_canonical
deriving DecidableEq, Repr

def save_prefs_steps : List SaveStep := [SaveStep.write_tmp, SaveStep.replace_canonical]

def run_save_step (doc : String) (st : PrefsDisk) : SaveStep → PrefsDisk
  | SaveStep.write_tmp => { st with tmp := some doc }
  | SaveStep.replace_canonical => { canonical := st.tmp, tmp := none }

/-- main._save_prefs_locked, run up to an arbitrary crash point: executing a
prefix of the step list models a failure after that many steps. -/
def _save_prefs_locked (doc : String) (st : PrefsDisk) (steps : List SaveStep) : PrefsDisk :=
  steps.foldl (run_save_step doc) st

/-- The temporary path used by main._save_prefs_locked. -/
def prefs_tmp_path (p : String) : String := p ++ ".tmp"

/-- Association-list lookup, modelling Python dict.get. -/
def alistGet {γ : Type} (l : List (String × γ)) (k : String) : Option γ :=
  (l.find? (fun e => e.1 == k)).map (fun e => e.2)

/-- Removal of a key, modelling Python dict.pop with a default. -/
def alistPop {γ : Type} (l : List (String × γ)) (k : String) : List (String × γ) :=
  l.filter (fun e => !(e.1 == k))

/-- Key assignment, modelling Python dict item assignment (observationally:
afterwards the key maps to the value and every other key is unchanged). -/
def alistSet {γ : Type} (l : List (String × γ)) (k : String) (v : γ) : List (String × γ) :=
  alistPop l k ++ [(k, v)]

/-- The in-memory preference cache of main.py.  The welcomed maps take no
part in the opt-out claims but complete the document layout. -/
structure Prefs where
  opt_out : List (String × List (String × Bool)) := []
  welcomed_groups : List (String × Bool) := []
  welcomed_private : List (String × Bool) := []
deriving DecidableEq, Repr

def prefs_empty : Prefs := {}

/-- main._is_opted_out. -/
def _is_opted_out (p : Prefs) (chat_id user_id : Int) : Bool :=
  let users := (alistGet p.opt_out (toString chat_id)).getD []
  (alistGet users (toString user_id)).getD false

/-- main._toggle_opt_out: flip the flag, drop a false entry, drop the chat
map when it empties, and return the new state.  Persistence of the result
is modelled by _save_prefs_locked. -/
def _toggle_opt_out (p : Prefs) (chat_id user_id : Int) : Bool × Prefs :=
  let chat_key := toString chat_id
  let users := (alistGet p.opt_out chat_key).getD []
  let user_key := toString user_id
  let new_value := !((alistGet users user_key).getD false)
  let users := alistSet users user_key new_value
  let users := if new_value then users else alistPop users user_key
  let opt_out :=
    if users.isEmpty then alistPop p.opt_out chat_key else alistSet p.opt_out chat_key users
  (new_value, { p with opt_out := opt_out })

/-- Whether the store holds any entry at all for the pair, true or false. -/
def opt_out_entry_present (p : Prefs) (chat_id user_id : Int) : Bool :=
  match alistGet p.opt_out (toString chat_id) with
  | none => false
  | some users => (alistGet users (toString user_id)).isSome

/-- n successive toggles for the same chat and user. -/
def toggle_iter (chat_id user_id : Int) : Nat → Prefs → Prefs
  | 0, p => p
  | n + 1, p => toggle_iter chat_id user_id n (_toggle_opt_out p chat_id user_id).2

/-- The job dictionary enqueued by main.handle_group_messages. -/
structure JobD where
  chat_id : Int := 0
  message_thread_id : Option Int := none
  original_message_id : Int := 0
  url : String := ""
  job_pfx : String := ""
  source_name : String := ""
  sender_full_name : String := ""
  notify_on_fail : Bool := false
  delete_original_on_success : Bool := true
deriving DecidableEq, Repr

/-- The queue bound MAX_QUEUE of main.py. -/
def MAX_QUEUE : Nat := 200

/-- The worker count of main.py. -/
def WORKERS : Nat := 2

/-- The bounded job queue (queue.Queue with maxsize). -/
structure JobsQueue where
  maxsize : Nat := MAX_QUEUE
  items : List JobD := []
deriving DecidableEq, Repr

/-- queue.Queue.put_nowait: refuse without blocking when a bounded queue is
at capacity, else append. -/
def put_nowait (q : JobsQueue) (j : JobD) : Except Unit JobsQueue :=
  if 0 < q.maxsize ∧ q.maxsize ≤ q.items.length then Except.error ()
  else Except.ok { q with items := q.items ++ [j] }

/-- Outcome of the submission tail of main.handle_group_messages: either the
job is enqueued, or queue.Full is caught, the queue is left as it was and a
failure notice goes out only when notify_on_fail is set. -/
inductive SubmitOutcome where
  | accepted (q : JobsQueue)
  | rejected (q : JobsQueue) (notified : Bool)
deriving DecidableEq, Repr

/-- The submission tail of main.handle_group_messages. -/
def submit_job (q : JobsQueue) (j : JobD) : SubmitOutcome :=
  match put_nowait q j with
  | Except.ok q2 => SubmitOutcome.accepted q2
  | Except.error _ => SubmitOutcome.rejected q j.notify_on_fail

/-- The environment-derived configuration of app/env_config.py, with its
defaults. -/
structure EnvCfg where
  YTDLP_JS_RUNTIMES : String := "node"
  YTDLP_REMOTE_COMPONENTS : String := "ejs:github"
  YTDLP_INSTAGRAM_IMPERSONATE : String := "chrome"
  YTDLP_INSTAGRAM_RETRIES : Int := 8
  YTDLP_INSTAGRAM_FRAGMENT_RETRIES : Int := 8
  YTDLP_INSTAGRAM_SOCKET_TIMEOUT : Int := 30
deriving DecidableEq, Repr

/-- download_backend._parse_csv_list. -/
def _parse_csv_list (raw : String) : List String :=
  ((py_split_char raw ',').map py_strip).filter (fun x => !x.isEmpty)

/-- download_backend._parse_impersonate_target: none for a blank name;
ImpersonateTarget.from_str of the yt-dlp runtime is modelled as accepting
the configured name. -/
def _parse_impersonate_target (raw : String) : Option String :=
  let name := py_strip raw
  if name.isEmpty then none else some name

/-- download_backend._build_http_headers, reduced to its User-Agent value. -/
def build_http_headers : String :=
  "Mozilla/5.0 (X11; Linux x86_64) AppleWebKit/537.36 (KHTML, like Gecko) Chrome/124.0 Safari/537.36"

/-- A yt-dlp metadata-fetch options dictionary as built by
download_backend._base_meta_opts and its overlays. -/
structure MetaOpts where
  quiet : Bool := true
  no_warnings : Bool := true
  noplaylist : Bool := true
  socket_timeout : Int := 20
  retries : Int := 5
  fragment_retries : Option Int := none
  http_headers : String := build_http_headers
  cookiefile : Option String := none
  impersonate : Option String := none
  js_runtimes : List String := []
  remote_components : List String := []
deriving DecidableEq, Repr

/-- A yt-dlp download options dictionary as built by
download_backend._base_download_opts and its overlays. -/
structure DlOpts where
  outtmpl : String := ""
  noplaylist : Bool := true
  quiet : Bool := true
  no_warnings : Bool := true
  concurrent_fragment_downloads : Int := 4
  retries : Int := 5
  fragment_retries : Int := 5
  socket_timeout : Int := 20
  max_filesize : Int := 0
  http_headers : String := build_http_headers
  format : String := ""
  merge_output_format : Option String := none
  cookiefile : Option String := none
  impersonate : Option String := none
  js_runtimes : List String := []
  remote_components : List String := []
deriving DecidableEq, Repr

/-- download_backend._base_meta_opts. -/
def base_meta_opts (cookiefile_value : Option String) (http_headers : String) : MetaOpts :=
  { socket_timeout := 20, retries := 5, http_headers := http_headers,
    cookiefile := cookiefile_value }

/-- download_backend._base_download_opts. -/
def base_download_opts (outtmpl : String) (max_send_bytes : Int) (concurrent_fragments : Int)
    (http_headers : String) : DlOpts :=
  { outtmpl := outtmpl, concurrent_fragment_downloads := concurrent_fragments,
    retries := 5, fragment_retries := 5, socket_timeout := 20,
    max_filesize := max_send_bytes, http_headers := http_headers }

/-- download_backend._youtube_api_opts applied to a metadata options dict. -/
def meta_apply_youtube (env : EnvCfg) (o : MetaOpts) : MetaOpts :=
  let runtimes := _parse_csv_list env.YTDLP_JS_RUNTIMES
  let rcs := _parse_csv_list env.YTDLP_REMOTE_COMPONENTS
  let o := if runtimes.isEmpty then o else { o with js_runtimes := runtimes }
  if rcs.isEmpty then o else { o with remote_components := rcs }

/-- download_backend._youtube_api_opts applied to a download options dict. -/
def dl_apply_youtube (env : EnvCfg) (o : DlOpts) : DlOpts :=
  let runtimes := _parse_csv_list env.YTDLP_JS_RUNTIMES
  let rcs := _parse_csv_list env.YTDLP_REMOTE_COMPONENTS
  let o := if runtimes.isEmpty then o else { o with js_runtimes := runtimes }
  if rcs.isEmpty then o else { o with remote_components := rcs }

/-- download_backend._instagram_api_opts applied to a metadata options dict. -/
def meta_apply_instagram_api (env : EnvCfg) (force_impersonate : Bool) (o : MetaOpts) :
    MetaOpts :=
  if force_impersonate then
    match _parse_impersonate_target env.YTDLP_INSTAGRAM_IMPERSONATE with
    | some t => { o with impersonate := some t }
    | none => o
  else o

/-- download_backend._instagram_api_opts applied to a download options dict. -/
def dl_apply_instagram_api (env : EnvCfg) (force_impersonate : Bool) (o : DlOpts) : DlOpts :=
  if force_impersonate then
    match _parse_impersonate_target env.YTDLP_INSTAGRAM_IMPERSONATE with
    | some t => { o with impersonate := some t }
    | none => o
  else o

/-- The Instagram retry/timeout overrides of download_with_ytdlp on a
metadata options dict. -/
def meta_apply_ig_overrides (env : EnvCfg) (o : MetaOpts) : MetaOpts :=
  { o with retries := env.YTDLP_INSTAGRAM_RETRIES,
           fragment_retries := some env.YTDLP_INSTAGRAM_FRAGMENT_RETRIES,
           socket_timeout := env.YTDLP_INSTAGRAM_SOCKET_TIMEOUT }

/-- The Instagram retry/timeout overrides of download_with_ytdlp on a
download options dict. -/
def dl_apply_ig_overrides (env : EnvCfg) (o : DlOpts) : DlOpts :=
  { o with retries := env.YTDLP_INSTAGRAM_RETRIES,
           fragment_retries := env.YTDLP_INSTAGRAM_FRAGMENT_RETRIES,
           socket_timeout := env.YTDLP_INSTAGRAM_SOCKET_TIMEOUT }

/-- The metadata options download_with_ytdlp builds for its first
metadata-extraction attempt. -/
def mk_meta_opts (env : EnvCfg) (is_yt is_ig : Bool) (cookiefile_value : Option String)
    (http_headers : String) : MetaOpts :=
  let mo := base_meta_opts cookiefile_value http_headers
  let mo := if is_yt then meta_apply_youtube env mo else mo
  if is_ig then meta_apply_instagram_api env true (meta_apply_ig_overrides env mo) else mo

/-- The format expression download_with_ytdlp uses when the planner yields a
plan, or its generic selector fallback. -/
def plan_format_value (meta : Meta) : String :=
  match build_video_plan_like_main1 meta with
  | some p => p.format_spec
  | none => "bv*[ext=mp4]+ba[ext=m4a]/b[ext=mp4]/bv*+ba/b"

/-- The merge container download_with_ytdlp pairs with plan_format_value. -/
def plan_merge_value (meta : Meta) : Option String :=
  match build_video_plan_like_main1 meta with
  | some p => p.merge_output_format
  | none => some "mp4"

/-- Application of the computed format, merge container and cookie file to a
download options dict (the shared tail of the primary and the Instagram
fallback option builders; the merge container is set only when truthy). -/
def dl_apply_plan (format_value : String) (merge_value : Option String)
    (cookiefile_value : Option String) (o : DlOpts) : DlOpts :=
  let o := { o with format := format_value }
  let o := match merge_value with
    | some mv => if mv.isEmpty then o else { o with merge_output_format := some mv }
    | none => o
  match cookiefile_value with
  | some c => { o with cookiefile := some c }
  | none => o

/-- The primary download options of download_with_ytdlp. -/
def mk_primary_dl_opts (env : EnvCfg) (is_yt is_ig : Bool) (outtmpl : String)
    (max_send_bytes concurrent_fragments : Int) (http_headers : String)
    (format_value : String) (merge_value : Option String)
    (cookiefile_value : Option String) : DlOpts :=
  let o := base_download_opts outtmpl max_send_bytes concurrent_fragments http_headers
  let o := dl_apply_plan format_value merge_value cookiefile_value o
  let o := if is_yt then dl_apply_youtube env o else o
  if is_ig then dl_apply_instagram_api env true (dl_apply_ig_overrides env o) else o

/-- The Instagram fail-soft fallback options of download_with_ytdlp: base
options, no forced impersonation, default retries and timeouts. -/
def mk_ig_fallback_dl_opts (outtmpl : String) (max_send_bytes concurrent_fragments : Int)
    (http_headers : String) (format_value : String) (merge_value : Option String)
    (cookiefile_value : Option String) : DlOpts :=
  dl_apply_plan format_value merge_value cookiefile_value
    (base_download_opts outtmpl max_send_bytes concurrent_fragments http_headers)

/-- The YouTube extractor-churn fallback options of download_with_ytdlp:
reduced parallelism and the hard-coded lowest-common-denominator format
expression. -/
def mk_yt_fallback_dl_opts (env : EnvCfg) (outtmpl : String) (max_send_bytes : Int)
    (http_headers : String) : DlOpts :=
  { dl_apply_youtube env (base_download_opts outtmpl max_send_bytes 1 http_headers) with
    format := "18/best[ext=mp4]/best" }

/-- download_backend.download_with_ytdlp over abstract media-service oracles:
metaSvc models metadata extraction, dlSvc models one download attempt.
Returns the final outcome together with the list of download-attempt
option dictionaries, in the order they were tried. -/
def download_with_ytdlp (metaSvc : MetaOpts → Except String Meta)
    (dlSvc : DlOpts → Except String Info) (env : EnvCfg) (is_yt is_ig : Bool)
    (cookiefile_value : Option String) (out_pfx output_folder : String)
    (max_send_bytes concurrent_fragments : Int) : Except String Info × List DlOpts :=
  let outtmpl := output_folder ++ "/" ++ out_pfx ++ ".%(ext)s"
  let http_headers := build_http_headers
  let metaRes :=
    match metaSvc (mk_meta_opts env is_yt is_ig cookiefile_value http_headers) with
    | Except.ok m => Except.ok m
    | Except.error e =>
      if is_ig then metaSvc (base_meta_opts cookiefile_value http_headers)
      else Except.error e
  match metaRes with
  | Except.error e => (Except.error e, [])
  | Except.ok meta =>
    let format_value := plan_format_value meta
    let merge_value := plan_merge_value meta
    let primary := mk_primary_dl_opts env is_yt is_ig outtmpl max_send_bytes
      concurrent_fragments http_headers format_value merge_value cookiefile_value
    match dlSvc primary with
    | Except.ok r => (Except.ok r, [primary])
    | Except.error e =>
      if is_ig then
        let fo := mk_ig_fallback_dl_opts outtmpl max_send_bytes concurrent_fragments
          http_headers format_value merge_value cookiefile_value
        (dlSvc fo, [primary, fo])
      else if is_yt then
        let yo := mk_yt_fallback_dl_opts env outtmpl max_send_bytes http_headers
        (dlSvc yo, [primary, yo])
      else (Except.error e, [primary])

/-- The observable events of one job processed by main._process_job. -/
inductive Ev where
  | dl (o : DlOpts)
  | sent (fp : String)
  | deletedOriginal
  | notifiedFail
  | cleaned (pfxv : String)
deriving DecidableEq, Repr

def Ev.isDlEv : Ev → Bool
  | Ev.dl _ => true
  | _ => false

def Ev.isSentEv : Ev → Bool
  | Ev.sent _ => true
  | _ => false

def Ev.isNotifyEv : Ev → Bool
  | Ev.notifiedFail => true
  | _ => false

def Ev.isCleanEv : Ev → Bool
  | Ev.cleaned _ => true
  | _ => false

/-- The try-body of main._process_job after the download call: resolve the
output file, refuse a missing file, an audio-only extension or an oversized
file, then send (main._send_video_no_reply raises before sending when the
size exceeds the ceiling) and optionally delete the original message. -/
def job_try_body (fs : FS) (folderFiles : List String) (info_res : Except String Info)
    (job_pfx output_folder : String) (max_send : Int) (delete_original : Bool) :
    Except String (List Ev) :=
  match info_res with
  | Except.error e => Except.error e
  | Except.ok info =>
    match _find_downloaded_file fs folderFiles info job_pfx output_folder with
    | none => Except.error "Downloaded file not found"
    | some file_path =>
      if !(path_exists fs file_path) then Except.error "Downloaded file not found"
      else if audio_only_exts.contains (py_lower (py_splitext_ext file_path)) then
        Except.error "Downloaded audio-only file; video download failed"
      else if max_send < getsize fs file_path then
        Except.error "File too large for Telegram bot upload limit"
      else Except.ok (Ev.sent file_path :: (if delete_original then [Ev.deletedOriginal] else []))

/-- main._process_job composed with the fallback chain of
download_backend.download_with_ytdlp (the claims treat the two as one
worker step): download with retries, run the try-body, notify on failure
when asked, and always clean up the job prefix in the finally block. -/
def process_job (metaSvc : MetaOpts → Except String Meta)
    (dlSvc : DlOpts → Except String Info) (env : EnvCfg) (fs : FS)
    (folderFiles : List String) (is_yt is_ig : Bool) (cookiefile_value : Option String)
    (job_pfx output_folder : String) (max_send concurrent_fragments : Int)
    (notify_on_fail delete_original : Bool) : List Ev :=
  let r := download_with_ytdlp metaSvc dlSvc env is_yt is_ig cookiefile_value job_pfx
    output_folder max_send concurrent_fragments
  r.2.map Ev.dl ++
    (match job_try_body fs folderFiles r.1 job_pfx output_folder max_send delete_original with
     | Except.ok evs => evs
     | Except.error _ => if notify_on_fail then [Ev.notifiedFail] else []) ++
    [Ev.cleaned job_pfx]

/-- The three source categories of the fallback policy. -/
inductive Src where
  | generic
  | youtube
  | instagram
deriving DecidableEq, Repr

def Src.isYt : Src → Bool
  | Src.youtube => true
  | _ => false

def Src.isIg : Src → Bool
  | Src.instagram => true
  | _ => false

/-- Download attempts the fallback policy makes for each category. -/
def attemptsOf : Src → Nat
  | Src.generic => 1
  | Src.youtube => 2
  | Src.instagram => 2

/-- A progressive mp4 candidate whose declared size is 12 MB. -/
def fmt_prog_12mb : Fmt :=
  { format_id := some "22", ext := some "mp4", vcodec := some "avc1.64001F",
    acodec := some "mp4a.40.2", height := some 720, fps := some 30, tbr := some 1200,
    filesize := some 12000000 }

/-- Metadata whose only progressive candidate declares 12 MB. -/
def meta_only_oversized : Meta := { formats := [fmt_prog_12mb] }

/-- A progressive mp4 candidate within a 10 MB budget. -/
def fmt_prog_5mb : Fmt :=
  { format_id := some "18", ext := some "mp4", vcodec := some "avc1.42001E",
    acodec := some "mp4a.40.2", height := some 360, fps := some 30, tbr := some 500,
    filesize := some 5000000 }

def meta_small : Meta := { formats := [fmt_prog_5mb] }

/-- Of two progressive candidates identical except the video codec family,
this is the preferred-family one. -/
def fmt_pair_avc1 : Fmt :=
  { format_id := some "135", ext := some "mp4", vcodec := some "avc1.4d401f",
    acodec := some "mp4a.40.2", height := some 480, fps := some 30, tbr := some 800 }

def fmt_pair_av01 : Fmt :=
  { format_id := some "395", ext := some "mp4", vcodec := some "av01.0.04M.08",
    acodec := some "mp4a.40.2", height := some 480, fps := some 30, tbr := some 800 }

def meta_codec_pair : Meta := { formats := [fmt_pair_av01, fmt_pair_avc1] }

/-- A video-only mp4 stream. -/
def fmt_video_only : Fmt :=
  { format_id := some "137", ext := some "mp4", vcodec := some "avc1.640028",
    acodec := some "none", height := some 1080, fps := some 30, tbr := some 4000,
    filesize := some 8000000 }

/-- An audio-only m4a stream. -/
def fmt_audio_only : Fmt :=
  { format_id := some "140", ext := some "m4a", vcodec := some "none",
    acodec := some "mp4a.40.2", abr := some 128, filesize := some 1000000 }

/-- Metadata holding both a progressive candidate and a separate pair. -/
def meta_both_kinds : Meta := { formats := [fmt_video_only, fmt_audio_only, fmt_prog_5mb] }

/-- A queue at its 200-job capacity. -/
def queue_full_200 : JobsQueue := { maxsize := MAX_QUEUE, items := List.replicate 200 {} }

/-- One finished 1000-byte mp4 on disk. -/
def fs_one_mp4 : FS := [("out/p1.mp4", 1000)]

/-- A download result reporting that file. -/
def info_one_mp4 : Info := { requested_downloads := some [{ filepath := some "out/p1.mp4" }] }

theorem ratGt_trans : ∀ x y z : Rat, ratGt x y = true → ratGt y z = true → ratGt x z = true := by
  intro x y z h1 h2
  simp only [ratGt, decide_eq_true_eq] at h1 h2 ⊢
  exact lt_trans h2 h1

theorem ratGt_irrefl : ∀ x : Rat, ratGt x x = false := by
  intro x
  simp [ratGt]

theorem intGt_trans : ∀ x y z : Int, intGt x y = true → intGt y z = true → intGt x z = true := by
  intro x y z h1 h2
  simp only [intGt, decide_eq_true_eq] at h1 h2 ⊢
  exact lt_trans h2 h1

theorem intGt_irrefl : ∀ x : Int, intGt x x = false := by
  intro x
  simp [intGt]

theorem lexGt_trans {α β : Type} [LinearOrder α] (rest : β → β → Bool)
    (hr : ∀ x y z, rest x y = true → rest y z = true → rest x z = true) :
    ∀ a b c : α × β, lexGt rest a b = true → lexGt rest b c = true → lexGt rest a c = true := by
  intro a b c h1 h2
  unfold lexGt at h1 h2 ⊢
  by_cases hab : a.1 = b.1
  · rw [if_pos hab] at h1
    by_cases hbc : b.1 = c.1
    · rw [if_pos hbc] at h2
      rw [if_pos (hab.trans hbc)]
      exact hr _ _ _ h1 h2
    · rw [if_neg hbc] at h2
      have hcb : c.1 < b.1 := of_decide_eq_true h2
      have hca : c.1 < a.1 := by rw [hab]; exact hcb
      rw [if_neg (ne_of_gt hca)]
      exact decide_eq_true hca
  · rw [if_neg hab] at h1
    have hba : b.1 < a.1 := of_decide_eq_true h1
    by_cases hbc : b.1 = c.1
    · have hca : c.1 < a.1 := by rw [← hbc]; exact hba
      rw [if_neg (ne_of_gt hca)]
      exact decide_eq_true hca
    · rw [if_neg hbc] at h2
      have hcb : c.1 < b.1 := of_decide_eq_true h2
      have hca : c.1 < a.1 := lt_trans hcb hba
      rw [if_neg (ne_of_gt hca)]
      exact decide_eq_true hca

theorem lexGt_irrefl {α β : Type} [LinearOrder α] (rest : β → β → Bool)
    (hr : ∀ x, rest x x = false) : ∀ a : α × β, lexGt rest a a = false := by
  intro a
  unfold lexGt
  rw [if_pos rfl]
  exact hr _

theorem key5Gt_trans : ∀ a b c : Key5, key5Gt a b = true → key5Gt b c = true →
    key5Gt a c = true :=
  lexGt_trans _ (lexGt_trans _ (lexGt_trans _ (lexGt_trans _ ratGt_trans)))

theorem key5Gt_irrefl : ∀ a : Key5, key5Gt a a = false :=
  lexGt_irrefl _ (lexGt_irrefl _ (lexGt_irrefl _ (lexGt_irrefl _ ratGt_irrefl)))

theorem argmax_step_ne_none_of_cand {ι κ P : Type} (cand : ι → Bool) (keyf : ι → κ)
    (gt : κ → κ → Bool) (mk : ι → P) (acc : Option (P × κ)) (f : ι) (hc : cand f = true) :
    argmax_step cand keyf gt mk acc f ≠ none := by
  unfold argmax_step
  rw [if_pos hc]
  match acc with
  | none => simp
  | some (p, bk) =>
    by_cases hgt : gt (keyf f) bk = true
    · simp [hgt]
    · simp [hgt]

theorem argmax_step_ne_none_of_acc {ι κ P : Type} (cand : ι → Bool) (keyf : ι → κ)
    (gt : κ → κ → Bool) (mk : ι → P) (acc : Option (P × κ)) (f : ι) (ha : acc ≠ none) :
    argmax_step cand keyf gt mk acc f ≠ none := by
  unfold argmax_step
  by_cases hc : cand f = true
  · rw [if_pos hc]
    match acc with
    | none => simp
    | some (p, bk) =>
      by_cases hgt : gt (keyf f) bk = true
      · simp [hgt]
      · simp [hgt]
  · rw [if_neg hc]
    exact ha

theorem argmax_step_eval_none {ι κ P : Type} (cand : ι → Bool) (keyf : ι → κ)
    (gt : κ → κ → Bool) (mk : ι → P) (f : ι) (hc : cand f = true) :
    argmax_step cand keyf gt mk none f = some (mk f, keyf f) := by
  simp [argmax_step, hc]

theorem argmax_step_eval_gt {ι κ P : Type} (cand : ι → Bool) (keyf : ι → κ)
    (gt : κ → κ → Bool) (mk : ι → P) (f : ι) (p : P) (bk : κ) (hc : cand f = true)
    (hgt : gt (keyf f) bk = true) :
    argmax_step cand keyf gt mk (some (p, bk)) f = some (mk f, keyf f) := by
  simp [argmax_step, hc, hgt]

theorem argmax_step_eval_ngt {ι κ P : Type} (cand : ι → Bool) (keyf : ι → κ)
    (gt : κ → κ → Bool) (mk : ι → P) (f : ι) (p : P) (bk : κ) (hc : cand f = true)
    (hgt : ¬ gt (keyf f) bk = true) :
    argmax_step cand keyf gt mk (some (p, bk)) f = some (p, bk) := by
  simp [argmax_step, hc, hgt]

theorem argmax_step_eval_ncand {ι κ P : Type} (cand : ι → Bool) (keyf : ι → κ)
    (gt : κ → κ → Bool) (mk : ι → P) (f : ι) (acc : Option (P × κ))
    (hc : ¬ cand f = true) : argmax_step cand keyf gt mk acc f = acc := by
  simp [argmax_step, hc]

theorem argmax_fold_ne_none {ι κ P : Type} (cand : ι → Bool) (keyf : ι → κ)
    (gt : κ → κ → Bool) (mk : ι → P) :
    ∀ (l : List ι) (acc : Option (P × κ)),
      (acc ≠ none ∨ ∃ f ∈ l, cand f = true) →
      l.foldl (argmax_step cand keyf gt mk) acc ≠ none := by
  intro l
  induction l with
  | nil =>
    intro acc h
    rcases h with h | ⟨f, hf, _⟩
    · simpa using h
    · simp at hf
  | cons f0 t ih =>
    intro acc h
    rw [List.foldl_cons]
    rcases h with h | ⟨f, hf, hcf⟩
    · exact ih _ (Or.inl (argmax_step_ne_none_of_acc cand keyf gt mk acc f0 h))
    · rcases List.mem_cons.mp hf with rfl | hft
      · exact ih _ (Or.inl (argmax_step_ne_none_of_cand cand keyf gt mk acc f hcf))
      · exact ih _ (Or.inr ⟨f, hft, hcf⟩)

theorem argmax_fold_provenance {ι κ P : Type} (cand : ι → Bool) (keyf : ι → κ)
    (gt : κ → κ → Bool) (mk : ι → P) :
    ∀ (l : List ι) (acc : Option (P × κ)) (p : P) (k : κ),
      l.foldl (argmax_step cand keyf gt mk) acc = some (p, k) →
      acc = some (p, k) ∨ ∃ f ∈ l, cand f = true ∧ p = mk f ∧ k = keyf f := by
  intro l
  induction l with
  | nil =>
    intro acc p k h
    simp at h
    exact Or.inl h
  | cons f0 t ih =>
    intro acc p k h
    rw [List.foldl_cons] at h
    rcases ih _ p k h with h1 | ⟨g, hg, hcg, hpg, hkg⟩
    · by_cases hc : cand f0 = true
      · match acc, h1 with
        | none, h1 =>
          rw [argmax_step_eval_none cand keyf gt mk f0 hc] at h1
          have h2 := Option.some.inj h1
          refine Or.inr ⟨f0, List.mem_cons_self f0 t, hc, ?_, ?_⟩
          · exact (congrArg Prod.fst h2).symm
          · exact (congrArg Prod.snd h2).symm
        | some (q, m), h1 =>
          by_cases hgt : gt (keyf f0) m = true
          · rw [argmax_step_eval_gt cand keyf gt mk f0 q m hc hgt] at h1
            have h2 := Option.some.inj h1
            refine Or.inr ⟨f0, List.mem_cons_self f0 t, hc, ?_, ?_⟩
            · exact (congrArg Prod.fst h2).symm
            · exact (congrArg Prod.snd h2).symm
          · rw [argmax_step_eval_ngt cand keyf gt mk f0 q m hc hgt] at h1
            exact Or.inl h1
      · rw [argmax_step_eval_ncand cand keyf gt mk f0 acc hc] at h1
        exact Or.inl h1
    · exact Or.inr ⟨g, List.mem_cons_of_mem _ hg, hcg, hpg, hkg⟩

theorem argmax_fold_dominates {ι κ P : Type} (cand : ι → Bool) (keyf : ι → κ)
    (gt : κ → κ → Bool) (mk : ι → P)
    (htr : ∀ a b c : κ, gt a b = true → gt b c = true → gt a c = true) :
    ∀ (l : List ι) (p0 : P) (k0 : κ) (p : P) (k : κ),
      l.foldl (argmax_step cand keyf gt mk) (some (p0, k0)) = some (p, k) →
      k = k0 ∨ gt k k0 = true := by
  intro l
  induction l with
  | nil =>
    intro p0 k0 p k h
    simp at h
    exact Or.inl h.2.symm
  | cons f0 t ih =>
    intro p0 k0 p k h
    rw [List.foldl_cons] at h
    by_cases hc : cand f0 = true
    · by_cases hgt : gt (keyf f0) k0 = true
      · rw [argmax_step_eval_gt cand keyf gt mk f0 p0 k0 hc hgt] at h
        rcases ih _ _ p k h with h1 | h1
        · exact Or.inr (h1 ▸ hgt)
        · exact Or.inr (htr _ _ _ h1 hgt)
      · rw [argmax_step_eval_ngt cand keyf gt mk f0 p0 k0 hc hgt] at h
        exact ih _ _ p k h
    · rw [argmax_step_eval_ncand cand keyf gt mk f0 _ hc] at h
      exact ih _ _ p k h

theorem argmax_fold_max {ι κ P : Type} (cand : ι → Bool) (keyf : ι → κ)
    (gt : κ → κ → Bool) (mk : ι → P)
    (htr : ∀ a b c : κ, gt a b = true → gt b c = true → gt a c = true)
    (hirr : ∀ a : κ, gt a a = false) :
    ∀ (l : List ι) (acc : Option (P × κ)) (p : P) (k : κ),
      l.foldl (argmax_step cand keyf gt mk) acc = some (p, k) →
      ∀ f ∈ l, cand f = true → gt (keyf f) k = false := by
  intro l
  induction l with
  | nil =>
    intro acc p k _ f hf
    simp at hf
  | cons f0 t ih =>
    intro acc p k h f hf hcf
    rw [List.foldl_cons] at h
    rcases List.mem_cons.mp hf with rfl | hft
    · have hstep : ∃ q m, argmax_step cand keyf gt mk acc f = some (q, m) ∧
          gt (keyf f) m = false := by
        unfold argmax_step
        rw [if_pos hcf]
        match acc with
        | none => exact ⟨mk f, keyf f, rfl, hirr _⟩
        | some (q0, m0) =>
          by_cases hgt : gt (keyf f) m0 = true
          · exact ⟨mk f, keyf f, by simp [hgt], hirr _⟩
          · exact ⟨q0, m0, by simp [hgt], Bool.eq_false_iff.mpr hgt⟩
      rcases hstep with ⟨q, m, hq, hm⟩
      rw [hq] at h
      rcases argmax_fold_dominates cand keyf gt mk htr t q m p k h with h1 | h1
      · rw [h1]
        exact hm
      · by_cases hgt : gt (keyf f) k = true
        · exact absurd (htr _ _ _ hgt h1) (Bool.eq_false_iff.mp hm)
        · exact Bool.eq_false_iff.mpr hgt
    · exact ih _ p k h f hft hcf

theorem isPrefixOf_length_eq : ∀ (a b s : List Char), a.isPrefixOf s = true →
    b.isPrefixOf s = true → a.length = b.length → a = b := by
  intro a
  induction a with
  | nil =>
    intro b s _ _ hl
    cases b with
    | nil => rfl
    | cons y ys => simp at hl
  | cons x xs ih =>
    intro b s h1 h2 hl
    cases s with
    | nil => simp [List.isPrefixOf] at h1
    | cons c cs =>
      cases b with
      | nil => simp at hl
      | cons y ys =>
        simp only [List.isPrefixOf, Bool.and_eq_true, beq_iff_eq] at h1 h2
        simp only [List.length_cons, Nat.add_right_cancel_iff] at hl
        rw [h1.1, h2.1, ih ys cs h1.2 h2.2 hl]

theorem py_startswith_unique (s p1 p2 : String) (h1 : py_startswith s p1 = true)
    (h2 : py_startswith s p2 = true) (hl : p1.length = p2.length) : p1 = p2 := by
  unfold py_startswith at h1 h2
  have hd : p1.data = p2.data := isPrefixOf_length_eq p1.data p2.data s.data h1 h2 hl
  cases p1
  cases p2
  exact congrArg String.mk hd

theorem alistGet_pop_self {γ : Type} (l : List (String × γ)) (k : String) :
    alistGet (alistPop l k) k = none := by
  unfold alistGet
  rcases hf : (alistPop l k).find? (fun e => e.1 == k) with _ | e
  · rw [hf]
    rfl
  · have hp := List.find?_some hf
    have hm := List.mem_of_find?_eq_some hf
    have hfl := (List.mem_filter.mp hm).2
    rw [hp] at hfl
    simp at hfl

theorem alistGet_append {γ : Type} (l1 l2 : List (String × γ)) (k : String) :
    alistGet (l1 ++ l2) k = (alistGet l1 k).orElse (fun _ => alistGet l2 k) := by
  induction l1 with
  | nil => rfl
  | cons e t ih =>
    by_cases hk : (e.1 == k) = true
    · simp [alistGet, List.find?, hk]
    · simp only [alistGet, List.cons_append, List.find?] at ih ⊢
      rw [Bool.of_not_eq_true hk]
      exact ih

theorem alistGet_set_self {γ : Type} (l : List (String × γ)) (k : String) (v : γ) :
    alistGet (alistSet l k v) k = some v := by
  unfold alistSet
  rw [alistGet_append, alistGet_pop_self]
  simp [alistGet, List.find?]

theorem alistSet_ne_nil {γ : Type} (l : List (String × γ)) (k : String) (v : γ) :
    (alistSet l k v).isEmpty = false := by
  simp [alistSet, alistPop, List.isEmpty_iff]

theorem is_good_spec (fs : FS) (fp : String) (h : _is_good_downloaded_file fs fp = true) :
    fp.isEmpty = false ∧ path_exists fs fp = true ∧
    py_endswith (py_lower (py_basename fp)) ".part" = false ∧
    py_endswith (py_lower (py_basename fp)) ".ytdl" = false ∧ 0 < getsize fs fp := by
  unfold _is_good_downloaded_file at h
  by_cases h1 : fp.isEmpty
  · rw [if_pos h1] at h
    exact absurd h (by simp)
  · rw [if_neg h1] at h
    by_cases h2 : path_exists fs fp
    · rw [if_neg (by simp [h2])] at h
      by_cases h3 : (py_endswith (py_lower (py_basename fp)) ".part" ||
          py_endswith (py_lower (py_basename fp)) ".ytdl") = true
      · rw [if_pos h3] at h
        exact absurd h (by simp)
      · rw [if_neg h3] at h
        simp only [Bool.or_eq_true, not_or] at h3
        refine ⟨by simp [h1], by simp [h2], ?_, ?_, of_decide_eq_true h⟩
        · exact Bool.eq_false_iff.mpr h3.1
        · exact Bool.eq_false_iff.mpr h3.2
    · rw [if_pos (by simp [h2])] at h
      exact absurd h (by simp)

theorem find_from_requested_good (fs : FS) (reqs : List ReqDl) (fp : String)
    (h : _find_from_requested fs reqs = some fp) : _is_good_downloaded_file fs fp = true := by
  simp only [_find_from_requested] at h
  have hmem : ∀ g, g ∈ (reqs.filterMap (fun r => r.filepath)).filter
      (fun q => !q.isEmpty && _is_good_downloaded_file fs q) →
      _is_good_downloaded_file fs g = true := by
    intro g hg
    have h2 := (List.mem_filter.mp hg).2
    simp only [Bool.and_eq_true] at h2
    exact h2.2
  split at h
  next g1 heq =>
    exact (Option.some.inj h) ▸ hmem g1 (List.mem_of_find?_eq_some heq)
  next _ =>
    split at h
    next g2 heq2 =>
      exact (Option.some.inj h) ▸ hmem g2 (List.mem_of_find?_eq_some heq2)
    next _ =>
      have hc : fp ∈ (reqs.filterMap (fun r => r.filepath)).filter
          (fun q => !q.isEmpty && _is_good_downloaded_file fs q) := by
        have hh := List.eq_cons_of_mem_head? (Option.mem_def.mpr h)
        rw [hh]
        exact List.mem_cons_self _ _
      exact hmem fp hc

theorem find_from_folder_good (fs : FS) (folderFiles : List String) (pfx folder fp : String)
    (h : _find_from_folder fs folderFiles pfx folder = some fp) :
    _is_good_downloaded_file fs fp = true := by
  simp only [_find_from_folder] at h
  split at h
  · exact absurd h (by simp)
  · split at h
    next g1 heq =>
      have hp := List.find?_some heq
      simp only [Bool.and_eq_true] at hp
      exact (Option.some.inj h) ▸ hp.2
    next _ =>
      split at h
      next g2 heq2 =>
        have hp := List.find?_some heq2
        simp only [Bool.and_eq_true] at hp
        exact (Option.some.inj h) ▸ hp.1.1
      next _ =>
        split at h
        next g3 heq3 =>
          have hp := List.find?_some heq3
          exact (Option.some.inj h) ▸ hp
        next _ => exact absurd h (by simp)

theorem find_downloaded_file_good (fs : FS) (folderFiles : List String) (info : Info)
    (pfx folder fp : String) (h : _find_downloaded_file fs folderFiles info pfx folder = some fp) :
    _is_good_downloaded_file fs fp = true := by
  unfold _find_downloaded_file at h
  rcases info with ⟨_ | reqs⟩
  · exact find_from_folder_good fs folderFiles pfx folder fp h
  · exact find_from_requested_good fs reqs fp h

theorem toggle_value (p : Prefs) (c u : Int) :
    (_toggle_opt_out p c u).1 = !(_is_opted_out p c u) := rfl

theorem toggle_state (p : Prefs) (c u : Int) :
    _is_opted_out (_toggle_opt_out p c u).2 c u = (_toggle_opt_out p c u).1 ∧
    opt_out_entry_present (_toggle_opt_out p c u).2 c u = (_toggle_opt_out p c u).1 := by
  simp only [_toggle_opt_out, _is_opted_out, opt_out_entry_present]
  by_cases hv : ((alistGet ((alistGet p.opt_out (toString c)).getD []) (toString u)).getD false)
      = true
  · by_cases he : (alistPop (alistSet ((alistGet p.opt_out (toString c)).getD [])
        (toString u) false) (toString u)).isEmpty = true
    · constructor <;>
        simp [hv, he, alistGet_pop_self,
          show ∀ k : String, alistGet ([] : List (String × Bool)) k = none from fun _ => rfl]
    · constructor <;> simp [hv, he, alistGet_set_self, alistGet_pop_self]
  · have hv2 := Bool.of_not_eq_true hv
    constructor <;> simp [hv2, alistSet_ne_nil, alistGet_set_self]

theorem absent_imp_not_opted (p : Prefs) (c u : Int)
    (h : opt_out_entry_present p c u = false) : _is_opted_out p c u = false := by
  simp only [opt_out_entry_present] at h
  simp only [_is_opted_out]
  rcases hg : alistGet p.opt_out (toString c) with _ | users
  · simp only [hg, Option.getD_none]
    rfl
  · simp only [hg, Option.getD_some] at h ⊢
    rcases hu : alistGet users (toString u) with _ | v
    · simp [hu]
    · simp [hu] at h

theorem toggle_even_absent (c u : Int) : ∀ (n : Nat) (p : Prefs),
    opt_out_entry_present p c u = false →
    opt_out_entry_present (toggle_iter c u (2 * n) p) c u = false := by
  intro n
  induction n with
  | zero =>
    intro p h
    simpa [toggle_iter] using h
  | succ m ih =>
    intro p h
    have h2 : 2 * (m + 1) = 2 * m + 1 + 1 := by ring
    rw [h2]
    rw [show toggle_iter c u (2 * m + 1 + 1) p = toggle_iter c u (2 * m)
        ((_toggle_opt_out ((_toggle_opt_out p c u).2) c u).2) from rfl]
    apply ih
    have hno : _is_opted_out p c u = false := absent_imp_not_opted p c u h
    have hv1 : (_toggle_opt_out p c u).1 = true := by
      rw [toggle_value, hno]
      rfl
    have hop1 : _is_opted_out (_toggle_opt_out p c u).2 c u = true := by
      rw [(toggle_state p c u).1, hv1]
    have hv2 : (_toggle_opt_out (_toggle_opt_out p c u).2 c u).1 = false := by
      rw [toggle_value, hop1]
      rfl
    rw [(toggle_state (_toggle_opt_out p c u).2 c u).2, hv2]

theorem dl_apply_plan_fields (fv : String) (mv : Option String) (ck : Option String)
    (o : DlOpts) :
    (dl_apply_plan fv mv ck o).retries = o.retries ∧
    (dl_apply_plan fv mv ck o).fragment_retries = o.fragment_retries ∧
    (dl_apply_plan fv mv ck o).socket_timeout = o.socket_timeout ∧
    (dl_apply_plan fv mv ck o).impersonate = o.impersonate ∧
    (dl_apply_plan fv mv ck o).concurrent_fragment_downloads =
      o.concurrent_fragment_downloads ∧
    (dl_apply_plan fv mv ck o).format = fv := by
  unfold dl_apply_plan
  rcases mv with _ | m
  · rcases ck with _ | cv <;> simp
  · by_cases hm : m.isEmpty <;> rcases ck with _ | cv <;> simp [hm]

theorem mk_ig_fallback_fields (outtmpl : String) (ms cf : Int) (hh fv : String)
    (mv ck : Option String) :
    (mk_ig_fallback_dl_opts outtmpl ms cf hh fv mv ck).retries = 5 ∧
    (mk_ig_fallback_dl_opts outtmpl ms cf hh fv mv ck).fragment_retries = 5 ∧
    (mk_ig_fallback_dl_opts outtmpl ms cf hh fv mv ck).socket_timeout = 20 ∧
    (mk_ig_fallback_dl_opts outtmpl ms cf hh fv mv ck).impersonate = none ∧
    (mk_ig_fallback_dl_opts outtmpl ms cf hh fv mv ck).concurrent_fragment_downloads = cf := by
  unfold mk_ig_fallback_dl_opts
  have h := dl_apply_plan_fields fv mv ck (base_download_opts outtmpl ms cf hh)
  refine ⟨?_, ?_, ?_, ?_, ?_⟩
  · rw [h.1]
    rfl
  · rw [h.2.1]
    rfl
  · rw [h.2.2.1]
    rfl
  · rw [h.2.2.2.1]
    rfl
  · rw [h.2.2.2.2.1]
    rfl

theorem mk_yt_fallback_fields (env : EnvCfg) (outtmpl : String) (ms : Int) (hh : String) :
    (mk_yt_fallback_dl_opts env outtmpl ms hh).concurrent_fragment_downloads = 1 ∧
    (mk_yt_fallback_dl_opts env outtmpl ms hh).format = "18/best[ext=mp4]/best" := by
  simp only [mk_yt_fallback_dl_opts, dl_apply_youtube]
  constructor
  · split <;> split <;> rfl
  · trivial

/-- C3 counterexample: with prefixA = "abc" and prefixB = "abcdef", the file
"abcdef.mp4" is namespaced under prefixB, yet cleanup of prefixA deletes it,
because the source filters by plain startswith. -/
theorem spec_c3_counterexample :
    py_startswith "abcdef.mp4" "abcdef" = true ∧
    ¬ ("abcdef.mp4" ∈ _cleanup_files "abc" ["abcdef.mp4"]) := by
  decide

/-- C3 (amended): cleanup deletes exactly the files whose name starts with
prefixA and leaves all other files unchanged; a file namespaced under a
distinct prefix of the same length (as real job prefixes are: 18-character
tokens) is never deleted. -/
theorem spec_c3_amended (pfxA pfxB : String) (files : List String) (fn : String)
    (hlen : pfxA.length = pfxB.length) (hne : ¬ pfxA = pfxB) :
    (∀ g ∈ files, py_startswith g pfxA = false → g ∈ _cleanup_files pfxA files) ∧
    (∀ g ∈ _cleanup_files pfxA files, g ∈ files ∧ py_startswith g pfxA = false) ∧
    (fn ∈ files → py_startswith fn pfxB = true → fn ∈ _cleanup_files pfxA files) := by
  refine ⟨?_, ?_, ?_⟩
  · intro g hg hng
    exact List.mem_filter.mpr ⟨hg, by simp [hng]⟩
  · intro g hg
    have h := List.mem_filter.mp hg
    refine ⟨h.1, ?_⟩
    have h2 := h.2
    simp only [Bool.not_eq_true'] at h2
    exact h2
  · intro hmem hB
    by_cases hA : py_startswith fn pfxA = true
    · exact absurd (py_startswith_unique fn pfxA pfxB hA hB hlen) hne
    · exact List.mem_filter.mpr ⟨hmem, by simp [Bool.eq_false_iff.mpr hA]⟩

theorem spec_c3_amended_witness :
    ("abd.mp4" ∈ _cleanup_files "abc" ["abc.mp4", "abd.mp4", "zzz"]) ∧
    ("zzz" ∈ _cleanup_files "abc" ["abc.mp4", "abd.mp4", "zzz"]) := by
  have h := spec_c3_amended "abc" "abd" ["abc.mp4", "abd.mp4", "zzz"] "abd.mp4" rfl (by decide)
  exact ⟨h.2.2 (by decide) (by decide), h.1 "zzz" (by decide) (by decide)⟩

/-- C5: the preference-store save writes the whole serialized document to the
temporary path first; stopping before the atomic replace (crash between
temp-file write and rename) leaves the canonical file exactly as committed,
and completing both steps installs the new document; the temporary path is
distinct from the canonical path. -/
theorem spec_c5_crash_safe_save : ∀ (doc : String) (st : PrefsDisk),
    (_save_prefs_locked doc st (save_prefs_steps.take 0)).canonical = st.canonical ∧
    (_save_prefs_locked doc st (save_prefs_steps.take 1)).canonical = st.canonical ∧
    (_save_prefs_locked doc st save_prefs_steps).canonical = some doc ∧
    (∀ p : String, (prefs_tmp_path p).length = p.length + 4) := by
  intro doc st
  refine ⟨rfl, rfl, rfl, ?_⟩
  intro p
  rw [show prefs_tmp_path p = p ++ ".tmp" from rfl, String.length_append]
  rfl

/-- C6 counterexample: for a user who is currently opted out (a state reached
by one toggle from the empty store), an even number of further toggles
leaves the entry present in the store, not absent. -/
theorem spec_c6_counterexample :
    _is_opted_out (_toggle_opt_out prefs_empty 1 2).2 1 2 = true ∧
    opt_out_entry_present (toggle_iter 1 2 2 (_toggle_opt_out prefs_empty 1 2).2) 1 2 = true := by
  decide

/-- C6 (amended): toggling twice restores the opt-out state to its original
value; a toggle stores the entry exactly when the new value is true (false
entries are removed rather than stored); an absent entry means not opted
out; and starting from any state in which the entry is absent — in
particular the initial store — the entry is absent again after every even
number of toggles. -/
theorem spec_c6_amended : ∀ (p : Prefs) (c u : Int),
    ((_toggle_opt_out (_toggle_opt_out p c u).2 c u).1 = _is_opted_out p c u ∧
     _is_opted_out (_toggle_opt_out (_toggle_opt_out p c u).2 c u).2 c u =
       _is_opted_out p c u) ∧
    (opt_out_entry_present (_toggle_opt_out p c u).2 c u = (_toggle_opt_out p c u).1) ∧
    (opt_out_entry_present p c u = false → _is_opted_out p c u = false) ∧
    (∀ n : Nat, opt_out_entry_present p c u = false →
      opt_out_entry_present (toggle_iter c u (2 * n) p) c u = false) := by
  intro p c u
  refine ⟨⟨?_, ?_⟩, (toggle_state p c u).2, absent_imp_not_opted p c u, ?_⟩
  · rw [toggle_value, (toggle_state p c u).1, toggle_value, Bool.not_not]
  · rw [(toggle_state (_toggle_opt_out p c u).2 c u).1, toggle_value,
      (toggle_state p c u).1, toggle_value, Bool.not_not]
  · intro n h
    exact toggle_even_absent c u n p h

theorem spec_c6_amended_witness :
    opt_out_entry_present (toggle_iter 1 2 (2 * 1) prefs_empty) 1 2 = false :=
  (spec_c6_amended prefs_empty 1 2).2.2.2 1 (by decide)

/-- C7: submitting to the bounded queue (capacity 200) when it is already at
or over capacity is rejected without enqueueing: put_nowait signals Full
instead of blocking, the submission path returns the queue unchanged, and a
notice is sent only on the explicit-request path. -/
theorem spec_c7_backpressure : ∀ (q : JobsQueue) (j : JobD), q.maxsize = MAX_QUEUE →
    MAX_QUEUE ≤ q.items.length →
    submit_job q j = SubmitOutcome.rejected q j.notify_on_fail ∧
    put_nowait q j = Except.error () := by
  intro q j hm hl
  have hfull : put_nowait q j = Except.error () := by
    unfold put_nowait
    rw [if_pos ⟨by rw [hm]; norm_num [MAX_QUEUE], by rw [hm]; exact hl⟩]
  exact ⟨by simp [submit_job, hfull], hfull⟩

theorem spec_c7_backpressure_witness :
    submit_job queue_full_200 {} = SubmitOutcome.rejected queue_full_200 false ∧
    put_nowait queue_full_200 {} = Except.error () :=
  spec_c7_backpressure queue_full_200 {} rfl (by decide)

/-- C9: both planners are pure functions of the metadata (and the byte
ceiling), so two invocations on equal inputs return identical plans: no
randomness, no wall-clock dependence. -/
theorem spec_c9_planner_deterministic : ∀ (m1 m2 : Meta) (maxSend : Int), m1 = m2 →
    build_video_plan_like_main1 m1 = build_video_plan_like_main1 m2 ∧
    _choose_format_for_url maxSend (some m1) = _choose_format_for_url maxSend (some m2) := by
  intro m1 m2 maxSend h
  subst h
  exact ⟨rfl, rfl⟩

theorem spec_c9_planner_deterministic_witness :
    build_video_plan_like_main1 meta_both_kinds = build_video_plan_like_main1 meta_both_kinds ∧
    _choose_format_for_url 10000000 (some meta_both_kinds) =
      _choose_format_for_url 10000000 (some meta_both_kinds) :=
  spec_c9_planner_deterministic meta_both_kinds meta_both_kinds 10000000 rfl

/-- C1: the size-aware progressive pick (main._pick_best_progressive_mp4)
only ever returns the id of a format whose declared size (filesize or
filesize_approx) is positive and within the ceiling; in particular, with a
10 MB ceiling and a single progressive candidate declaring 12 MB it returns
nothing and the caller falls through past the separate-stream stage to the
generic no-plan selector. -/
theorem spec_c1_size_budget :
    (∀ (maxSend : Int) (meta : Meta) (i : String),
      _pick_best_progressive_mp4 maxSend meta = some i →
      ∃ f ∈ meta.formats, pyStr f.format_id = i ∧
        ∃ s, _format_size_bytes f = some s ∧ 0 < s ∧ s ≤ maxSend) ∧
    (_pick_best_progressive_mp4 10000000 meta_only_oversized = none ∧
     _choose_format_for_url 10000000 (some meta_only_oversized) =
       (ytdlp_fallback_fmt, some "mp4")) := by
  constructor
  · intro maxSend meta i h
    unfold _pick_best_progressive_mp4 at h
    rcases hf : meta.formats.foldl
        (argmax_step (_pick_candidate maxSend) _pick_key key4mGt (fun f => pyStr f.format_id))
        none with _ | pk
    · rw [hf] at h
      simp at h
    · obtain ⟨pi, pkk⟩ := pk
      rw [hf] at h
      have hi : pi = i := by simpa using h
      rcases argmax_fold_provenance (_pick_candidate maxSend) _pick_key key4mGt
          (fun f => pyStr f.format_id) meta.formats none pi pkk hf with hx | hprov
      · simp at hx
      · rcases hprov with ⟨f, hfm, hcf, hpf, _⟩
        refine ⟨f, hfm, by rw [← hpf, hi], ?_⟩
        simp only [_pick_candidate, Bool.and_eq_true] at hcf
        have hm := hcf.2
        rcases hs : _format_size_bytes f with _ | s
        · rw [hs] at hm
          simp at hm
        · rw [hs] at hm
          simp only [Bool.and_eq_true, decide_eq_true_eq] at hm
          exact ⟨s, rfl, hm.1, hm.2⟩
  · constructor
    · decide
    · decide

theorem spec_c1_size_budget_witness :
    ∃ f ∈ meta_small.formats, pyStr f.format_id = "18" ∧
      ∃ s, _format_size_bytes f = some s ∧ 0 < s ∧ s ≤ 10000000 :=
  spec_c1_size_budget.1 10000000 meta_small "18" (by decide)

/-- C2: download_backend.best_progressive_mp4 returns a candidate (mp4, both
codecs present, non-empty id) whose sort key (videoCodecRank,
audioCodecRank, height, fps, bitrate) — codec rank 2 for the preferred
family, 1 otherwise — is lexicographically maximal among all candidates;
in particular, of two candidates identical except the video codec family,
the one with the higher codec rank is picked, whatever their order. -/
theorem spec_c2_progressive_key :
    (∀ (meta : Meta) (p : Plan), best_progressive_mp4 meta = some p →
      ∃ f ∈ meta.formats, prog_candidate f = true ∧ p = prog_plan f ∧
        ∀ g ∈ meta.formats, prog_candidate g = true →
          key5Gt (prog_key g) (prog_key f) = false) ∧
    (∀ (d : Option Rat) (f g : Fmt) (ar hh fp : Int) (t : Rat),
      prog_candidate f = true → prog_candidate g = true →
      prog_key f = (2, ar, hh, fp, t) → prog_key g = (1, ar, hh, fp, t) →
      best_progressive_mp4 { duration := d, formats := [f, g] } = some (prog_plan f) ∧
      best_progressive_mp4 { duration := d, formats := [g, f] } = some (prog_plan f)) := by
  constructor
  · intro meta p h
    unfold best_progressive_mp4 at h
    rcases hf : meta.formats.foldl (argmax_step prog_candidate prog_key key5Gt prog_plan)
        none with _ | pk
    · rw [hf] at h
      simp at h
    · obtain ⟨pp, kk⟩ := pk
      rw [hf] at h
      have hp : pp = p := by simpa using h
      rcases argmax_fold_provenance prog_candidate prog_key key5Gt prog_plan meta.formats
          none pp kk hf with hx | hprov
      · simp at hx
      · rcases hprov with ⟨f, hfm, hcf, hpf, hkf⟩
        refine ⟨f, hfm, hcf, by rw [← hp, hpf], ?_⟩
        intro g hgm hcg
        have hmax := argmax_fold_max prog_candidate prog_key key5Gt prog_plan key5Gt_trans
          key5Gt_irrefl meta.formats none pp kk hf g hgm hcg
        rw [← hkf]
        exact hmax
  · intro d f g ar hh fp t hcf hcg hkf hkg
    have hgtfg : key5Gt (prog_key g) (prog_key f) = false := by
      rw [hkg, hkf]
      simp [key5Gt, lexGt]
    have hgtgf : key5Gt (prog_key f) (prog_key g) = true := by
      rw [hkf, hkg]
      simp [key5Gt, lexGt]
    constructor
    · show (List.foldl (argmax_step prog_candidate prog_key key5Gt prog_plan) none
          [f, g]).map (fun x => x.1) = some (prog_plan f)
      rw [List.foldl_cons, argmax_step_eval_none _ _ _ _ f hcf, List.foldl_cons,
        argmax_step_eval_ngt _ _ _ _ g (prog_plan f) (prog_key f) hcg (by simp [hgtfg]),
        List.foldl_nil]
      rfl
    · show (List.foldl (argmax_step prog_candidate prog_key key5Gt prog_plan) none
          [g, f]).map (fun x => x.1) = some (prog_plan f)
      rw [List.foldl_cons, argmax_step_eval_none _ _ _ _ g hcg, List.foldl_cons,
        argmax_step_eval_gt _ _ _ _ f (prog_plan g) (prog_key g) hcf hgtgf,
        List.foldl_nil]
      rfl

theorem spec_c2_progressive_key_witness :
    ∃ f ∈ meta_codec_pair.formats, prog_candidate f = true ∧
      prog_plan fmt_pair_avc1 = prog_plan f ∧
      ∀ g ∈ meta_codec_pair.formats, prog_candidate g = true →
        key5Gt (prog_key g) (prog_key f) = false :=
  spec_c2_progressive_key.1 meta_codec_pair (prog_plan fmt_pair_avc1) (by decide)

/-- C8: when the metadata holds a valid progressive candidate (and also a
valid separate video-only/audio-only pair), the planner returns the
progressive plan — a single format id with no merge — because the
progressive stage short-circuits the separate stage. -/
theorem spec_c8_progressive_priority (meta : Meta)
    (h1 : ∃ f ∈ meta.formats, prog_candidate f = true)
    (h2 : (∃ v ∈ meta.formats, sep_video_candidate v = true) ∧
          (∃ a ∈ meta.formats, sep_audio_candidate a = true)) :
    build_video_plan_like_main1 meta = best_progressive_mp4 meta ∧
    ∃ p, build_video_plan_like_main1 meta = some p ∧ p.kind = "progressive" ∧
      p.merge_output_format = none := by
  have hne := argmax_fold_ne_none prog_candidate prog_key key5Gt prog_plan meta.formats none
    (Or.inr h1)
  rcases hf : meta.formats.foldl (argmax_step prog_candidate prog_key key5Gt prog_plan) none
      with _ | pk
  · exact absurd hf hne
  · obtain ⟨pp, kk⟩ := pk
    have hbest : best_progressive_mp4 meta = some pp := by
      unfold best_progressive_mp4
      rw [hf]
      rfl
    have hbuild : build_video_plan_like_main1 meta = some pp := by
      unfold build_video_plan_like_main1
      rw [hbest]
    rcases argmax_fold_provenance prog_candidate prog_key key5Gt prog_plan meta.formats none
        pp kk hf with hx | hprov
    · simp at hx
    · rcases hprov with ⟨f, _, _, hpf, _⟩
      refine ⟨by rw [hbuild, hbest], pp, hbuild, ?_, ?_⟩
      · rw [hpf]
        rfl
      · rw [hpf]
        rfl

theorem spec_c8_progressive_priority_witness :
    build_video_plan_like_main1 meta_both_kinds = best_progressive_mp4 meta_both_kinds ∧
    ∃ p, build_video_plan_like_main1 meta_both_kinds = some p ∧ p.kind = "progressive" ∧
      p.merge_output_format = none :=
  spec_c8_progressive_priority meta_both_kinds
    ⟨fmt_prog_5mb, by decide, by decide⟩
    ⟨⟨fmt_video_only, by decide, by decide⟩, ⟨fmt_audio_only, by decide, by decide⟩⟩

/-- C4: with metadata resolving and the media service failing every download
attempt, the per-category fallback chain makes exactly one attempt for a
generic source and two for YouTube-like and Instagram-like sources; the
YouTube retry uses reduced parallelism and the hard-coded
lowest-common-denominator format expression, the Instagram retry disables
impersonation and restores default retries and timeouts; only the final
error of the final attempt escapes; the job resolves as failed exactly once (one
notice only when requested, nothing sent) and cleanup of the job prefix
runs exactly once. -/
theorem spec_c4_fallback_exhaustion : ∀ (err : DlOpts → String)
    (metaSvc : MetaOpts → Except String Meta) (env : EnvCfg) (fs : FS)
    (folderFiles : List String) (cookie : Option String) (jpfx folder : String)
    (maxSend cf : Int) (notify delOrig : Bool) (cat : Src) (meta : Meta),
    (∀ mo, metaSvc mo = Except.ok meta) →
    (let dlSvc : DlOpts → Except String Info := fun o => Except.error (err o)
     let r := download_with_ytdlp metaSvc dlSvc env cat.isYt cat.isIg cookie jpfx folder
       maxSend cf
     let evs := process_job metaSvc dlSvc env fs folderFiles cat.isYt cat.isIg cookie jpfx
       folder maxSend cf notify delOrig
     r.2.length = attemptsOf cat ∧
     evs.countP Ev.isDlEv = attemptsOf cat ∧
     evs.countP Ev.isCleanEv = 1 ∧
     evs.countP Ev.isSentEv = 0 ∧
     evs.countP Ev.isNotifyEv = (if notify then 1 else 0) ∧
     (∃ o, r.2.getLast? = some o ∧ r.1 = Except.error (err o)) ∧
     (cat = Src.youtube → ∃ o, r.2.getLast? = some o ∧
        o.concurrent_fragment_downloads = 1 ∧ o.format = "18/best[ext=mp4]/best") ∧
     (cat = Src.instagram → ∃ o, r.2.getLast? = some o ∧ o.impersonate = none ∧
        o.retries = 5 ∧ o.fragment_retries = 5 ∧ o.socket_timeout = 20)) := by
  intro err metaSvc env fs folderFiles cookie jpfx folder maxSend cf notify delOrig cat meta
    hmeta
  cases cat <;> cases notify <;>
    simp [download_with_ytdlp, process_job, job_try_body, hmeta, Src.isYt, Src.isIg,
      attemptsOf, Ev.isDlEv, Ev.isCleanEv, Ev.isSentEv, Ev.isNotifyEv, List.countP_append,
      List.countP_cons, List.countP_nil, List.getLast?,
      mk_ig_fallback_fields, mk_yt_fallback_fields]

theorem spec_c4_fallback_exhaustion_witness :
    (process_job (fun _ => Except.ok meta_small) (fun o => Except.error "boom") {} [] []
        Src.instagram.isYt Src.instagram.isIg none "p1" "out" 50000000 4 true true).countP
      Ev.isCleanEv = 1 ∧
    (download_with_ytdlp (fun _ => Except.ok meta_small) (fun o => Except.error "boom") {}
        Src.instagram.isYt Src.instagram.isIg none "p1" "out" 50000000 4).2.length =
      attemptsOf Src.instagram := by
  have h := spec_c4_fallback_exhaustion (fun _ => "boom") (fun _ => Except.ok meta_small) {}
    [] [] none "p1" "out" 50000000 4 true true Src.instagram meta_small (fun _ => rfl)
  exact ⟨h.2.2.1, h.1⟩

/-- C10: whenever a job reaches the send step (an Ev.sent event exists), the
file that was handed over exists, has positive size within the send
ceiling, is not a .part or .ytdl intermediate, and does not carry an
audio-only extension; the validation happens before any send, so a file
violating any of these fails the job instead. -/
theorem spec_c10_sent_file_valid : ∀ (metaSvc : MetaOpts → Except String Meta)
    (dlSvc : DlOpts → Except String Info) (env : EnvCfg) (fs : FS)
    (folderFiles : List String) (is_yt is_ig : Bool) (cookie : Option String)
    (jpfx folder : String) (maxSend cf : Int) (notify delOrig : Bool) (fp : String),
    Ev.sent fp ∈ process_job metaSvc dlSvc env fs folderFiles is_yt is_ig cookie jpfx folder
      maxSend cf notify delOrig →
    _is_good_downloaded_file fs fp = true ∧ path_exists fs fp = true ∧ 0 < getsize fs fp ∧
    getsize fs fp ≤ maxSend ∧
    py_endswith (py_lower (py_basename fp)) ".part" = false ∧
    py_endswith (py_lower (py_basename fp)) ".ytdl" = false ∧
    audio_only_exts.contains (py_lower (py_splitext_ext fp)) = false := by
  intro metaSvc dlSvc env fs folderFiles is_yt is_ig cookie jpfx folder maxSend cf notify
    delOrig fp h
  simp only [process_job, List.mem_append] at h
  rcases h with (hA | hB) | hC
  · rcases List.mem_map.mp hA with ⟨o, _, ho⟩
    simp at ho
  · rcases hb : job_try_body fs folderFiles
        (download_with_ytdlp metaSvc dlSvc env is_yt is_ig cookie jpfx folder maxSend cf).1
        jpfx folder maxSend delOrig with e | evs
    · rw [hb] at hB
      cases notify <;> simp at hB
    · rw [hb] at hB
      simp only [job_try_body] at hb
      split at hb
      · exact absurd hb (by simp)
      · split at hb
        · exact absurd hb (by simp)
        · rename_i file_path heqfind
          split_ifs at hb with hex haud hsz hdel <;>
            first
            | exact absurd hb (fun hcon => Except.noConfusion hcon)
            | (have hevs := Except.ok.inj hb
               rw [← hevs] at hB
               simp at hB
               subst hB
               have hgood := find_downloaded_file_good fs folderFiles _ jpfx folder fp heqfind
               have hspec := is_good_spec fs fp hgood
               exact ⟨hgood, hspec.2.1, hspec.2.2.2.2, Int.not_lt.mp hsz, hspec.2.2.1,
                 hspec.2.2.2.1, Bool.eq_false_iff.mpr haud⟩)
  · simp at hC

theorem spec_c10_sent_file_valid_witness :
    _is_good_downloaded_file fs_one_mp4 "out/p1.mp4" = true ∧
    path_exists fs_one_mp4 "out/p1.mp4" = true ∧ 0 < getsize fs_one_mp4 "out/p1.mp4" ∧
    getsize fs_one_mp4 "out/p1.mp4" ≤ 50000000 ∧
    py_endswith (py_lower (py_basename "out/p1.mp4")) ".part" = false ∧
    py_endswith (py_lower (py_basename "out/p1.mp4")) ".ytdl" = false ∧
    audio_only_exts.contains (py_lower (py_splitext_ext "out/p1.mp4")) = false :=
  spec_c10_sent_file_valid (fun _ => Except.ok meta_small) (fun _ => Except.ok info_one_mp4)
    {} fs_one_mp4 [] false false none "p1" "out" 50000000 4 false true "out/p1.mp4"
    (by decide)
